import Mathlib

/-!
Shallow embedding of the `bobtester` backtesting core
(`bobtester/condition.py`, `bobtester/backtest.py`, `bobtester/manipulate.py`)
and verification of its specification.

Conventions of the embedding:
* Python floats are modelled as rationals (`ℚ`); Python ints as `ℤ`/`ℕ`.
* `None`-able values are `Option`s.
* Code that can raise (out-of-range `iloc` access) returns `Option`.
* Pandas date columns are modelled as `ℤ` day numbers; a DataFrame of price
  rows is a `List Bar`; the `outcome` string column of the outcomes
  DataFrame is a `List String` / a `String` field.
* Python truthiness of an optional float (`if x:`) is `pyTruthy`.
-/

/-- `Outcomes` enum from `bobtester/__init__.py`. -/
inductive Outcomes
  | PROFITABLE
  | UNPROFITABLE
  | LIQUIDATED
  | SKIPPED
deriving DecidableEq, Repr

/-- Python's `Enum.name` attribute for `Outcomes` members. -/
def Outcomes.pyName : Outcomes → String
  | .PROFITABLE => "PROFITABLE"
  | .UNPROFITABLE => "UNPROFITABLE"
  | .LIQUIDATED => "LIQUIDATED"
  | .SKIPPED => "SKIPPED"

/-- `StrategyTypes` enum from `bobtester/__init__.py`. -/
inductive StrategyTypes
  | LONG_CONDOR
  | BULL_PUT_SPREAD
  | BEAR_CALL_SPREAD
deriving DecidableEq, Repr

/-- `Bound` from `bobtester/condition.py`: an inclusive or exclusive range test. -/
structure Bound where
  lower : Option ℚ
  upper : Option ℚ
  inside : Bool := true
deriving DecidableEq, Repr

/-- `Bound.contains` (condition.py lines 26-50), transcribed branch by branch. -/
def Bound.contains (b : Bound) (value : ℚ) : Bool :=
  if b.inside then
    match b.lower, b.upper with
    | some l, some u => decide (l ≤ value ∧ value ≤ u)
    | some l, none => decide (l ≤ value)
    | none, some u => decide (value ≤ u)
    | none, none => false
  else
    match b.lower, b.upper with
    | some l, some u => decide (value < l ∨ value > u)
    | some l, none => decide (value < l)
    | none, some u => decide (value > u)
    | none, none => false

/-- Python truthiness of an optional float: `None` and `0.0` are falsy. -/
def pyTruthy : Option ℚ → Bool
  | none => false
  | some v => decide (v ≠ 0)

/-- `Condition` from `bobtester/condition.py`: stored constructor arguments plus
the derived state produced by `initialize_bounds` / `determine_strategy`.
`strategy` is `none` when no branch of `determine_strategy` assigns it
(the Python object is then left without a `strategy` attribute). -/
structure Condition where
  open_price : ℚ
  period_days : ℤ
  profit_below_price_factor : Option ℚ
  profit_above_price_factor : Option ℚ
  liquidate_below_price_factor : Option ℚ
  liquidate_above_price_factor : Option ℚ
  profit_bound : Bound
  liquidate_bound : Bound
  strategy : Option StrategyTypes
deriving DecidableEq, Repr

/-- `Condition.initialize_bounds` (condition.py lines 105-116): derives the
profit bound (inclusive) and the liquidation bound (exclusive) from the open
price and the optional factors.  Returns `(profit_bound, liquidate_bound)`. -/
def Condition.initialize_bounds (open_price : ℚ)
    (pbf paf lbf laf : Option ℚ) : Bound × Bound :=
  (⟨pbf.map (fun f => open_price * (1 - f)),
    paf.map (fun f => open_price * (1 + f)), true⟩,
   ⟨lbf.map (fun f => open_price * (1 - f)),
    laf.map (fun f => open_price * (1 + f)), false⟩)

/-- `Condition.determine_strategy` (condition.py lines 118-125).  The Python
`if`/`elif` chain tests the bound values for truthiness (`and`/`not` on
floats-or-`None`), and assigns nothing when no branch matches. -/
def Condition.determine_strategy (profit_bound : Bound) : Option StrategyTypes :=
  if pyTruthy profit_bound.upper && pyTruthy profit_bound.lower then
    some StrategyTypes.LONG_CONDOR
  else if pyTruthy profit_bound.upper && !pyTruthy profit_bound.lower then
    some StrategyTypes.BULL_PUT_SPREAD
  else if pyTruthy profit_bound.lower && !pyTruthy profit_bound.upper then
    some StrategyTypes.BEAR_CALL_SPREAD
  else
    none

/-- `Condition.__init__` (condition.py lines 75-103): stores the arguments and
derives bounds and strategy.  The constructor performs no validation and
raises no error. -/
def Condition.init (open_price : ℚ) (period_days : ℤ)
    (pbf paf lbf laf : Option ℚ) : Condition :=
  let bounds := Condition.initialize_bounds open_price pbf paf lbf laf
  { open_price := open_price
    period_days := period_days
    profit_below_price_factor := pbf
    profit_above_price_factor := paf
    liquidate_below_price_factor := lbf
    liquidate_above_price_factor := laf
    profit_bound := bounds.1
    liquidate_bound := bounds.2
    strategy := Condition.determine_strategy bounds.1 }

/-- `Condition.update_open_price` (condition.py lines 127-136): re-runs
`__init__` with the same factors and a new open price.  If the re-run of
`determine_strategy` matches no branch, the Python attribute keeps its old
value, hence the `<|>`. -/
def Condition.update_open_price (c : Condition) (new_open_price : ℚ) : Condition :=
  let c' := Condition.init new_open_price c.period_days
    c.profit_below_price_factor c.profit_above_price_factor
    c.liquidate_below_price_factor c.liquidate_above_price_factor
  { c' with strategy := c'.strategy <|> c.strategy }

/-- `Condition.return_current_status` (condition.py lines 153-168). -/
def Condition.return_current_status (c : Condition) (current_price : ℚ) : Outcomes :=
  if c.liquidate_bound.contains current_price then
    Outcomes.LIQUIDATED
  else if c.profit_bound.contains current_price then
    Outcomes.PROFITABLE
  else
    Outcomes.UNPROFITABLE

/-- One row of the per-asset price DataFrame: the columns the engine reads.
`open_` is the `open` column (renamed because `open` is a Lean keyword). -/
structure Bar where
  date : ℤ
  open_ : ℚ
  high : ℚ
  low : ℚ
  close : ℚ
deriving DecidableEq, Repr

/-- One row of the `outcome_dataframe` built by `BackTester.backtest`
(backtest.py lines 186, 215-222).  The `outcome` column stores the enum
member's name string, as in the source. -/
structure OutcomeRecord where
  start_date : ℤ
  end_date : ℤ
  outcome : String
  open_price : ℚ
  close_price : ℚ
  liquidated_at_price : ℚ
deriving DecidableEq, Repr

/-- `get_sub_frames` from `bobtester/manipulate.py`: every non-empty prefix of
the frame, in increasing length order (`df.iloc[:i+1]` for each `i`). -/
def get_sub_frames (df : List Bar) : List (List Bar) :=
  (List.range df.length).map (fun i => df.take (i + 1))

/-- The loop of `BackTester._get_outcome` (backtest.py lines 241-246): scan the
rows in order; at the first row whose low or high classifies as `LIQUIDATED`
return the triggering price (the low if the low triggered, else the high). -/
def get_outcome_scan (c : Condition) : List Bar → Option ℚ
  | [] => none
  | row :: rest =>
    if c.return_current_status row.low = Outcomes.LIQUIDATED
        ∨ c.return_current_status row.high = Outcomes.LIQUIDATED then
      some (if c.return_current_status row.low = Outcomes.LIQUIDATED
            then row.low else row.high)
    else
      get_outcome_scan c rest

/-- `BackTester._get_outcome` (backtest.py lines 230-248).  If no row triggers
liquidation, the close of the last row is classified
(`period.iloc[-1]['close']`); `none` models the `IndexError` raised on an
empty period. -/
def get_outcome (c : Condition) (period : List Bar) : Option (Outcomes × ℚ) :=
  match get_outcome_scan c period with
  | some price => some (Outcomes.LIQUIDATED, price)
  | none => period.getLast?.map (fun last => (c.return_current_status last.close, 0))

/-- Python slice `l[:stop]` for a possibly negative `stop`
(`take stop` when `stop ≥ 0`, `take (len + stop)` when `stop < 0`). -/
def pyTake {α : Type} (l : List α) (stop : ℤ) : List α :=
  l.take (if 0 ≤ stop then stop.toNat else ((l.length : ℤ) + stop).toNat)

/-- The date filter applied by `BackTester.backtest` (backtest.py lines
189-194): the asset's rows, restricted to dates `≥ start_from` when given. -/
def date_filtered (crypto : List Bar) (start_from : Option ℤ) : List Bar :=
  match start_from with
  | some d => crypto.filter (fun b => decide (d ≤ b.date))
  | none => crypto

/-- `Option`-monad `mapM` on lists, written out: the whole result is `none`
as soon as one element fails (the Python loop raises and aborts). -/
def optionMapM {α β : Type} (f : α → Option β) : List α → Option (List β)
  | [] => some []
  | a :: l =>
    match f a, optionMapM f l with
    | some b, some bs => some (b :: bs)
    | _, _ => none

/-- One iteration of the loop in `BackTester.backtest` (backtest.py lines
197-225) at index `i` with prefix frame `edf` (`= cdf.iloc[:i+1]`):
  * `trimmed_edf` is `edf.iloc[:-period_days]` when `len(edf) > period_days`,
    else an empty frame;
  * `df` is `edf.iloc[max(0, i - period_days + 1):i + 1]`;
  * the row records the window's first/last date, open of the first row and
    close of the last row (`none` models the `IndexError` when `df` is empty);
  * if `start_position(trimmed_edf)` holds, the condition is reopened at the
    window's open price and `_get_outcome` decides outcome and liquidation
    price; otherwise the row is `SKIPPED` with liquidated_at_price 0. -/
def backtest_step (sc : Condition) (start_position : List Bar → Bool)
    (i : ℕ) (edf : List Bar) : Option OutcomeRecord :=
  let pd := sc.period_days
  let trimmed_edf := if (edf.length : ℤ) > pd then pyTake edf (-pd) else []
  let a := (max 0 ((i : ℤ) - pd + 1)).toNat
  let df := (edf.drop a).take (i + 1 - a)
  match df.head?, df.getLast? with
  | some first, some last =>
    let start_date := first.date
    let end_date := last.date
    let open_price := first.open_
    let close_price := last.close
    if start_position trimmed_edf then
      let sc' := sc.update_open_price open_price
      (get_outcome sc' df).map (fun r =>
        { start_date := start_date
          end_date := end_date
          outcome := r.1.pyName
          open_price := open_price
          close_price := close_price
          liquidated_at_price := r.2 })
    else
      some { start_date := start_date
             end_date := end_date
             outcome := Outcomes.SKIPPED.pyName
             open_price := open_price
             close_price := close_price
             liquidated_at_price := 0 }
  | _, _ => none

/-- `BackTester.backtest` (backtest.py lines 172-227): filter by the optional
start date, enumerate the growing prefixes produced by `get_sub_frames`, and
run one `backtest_step` per index, collecting one record per window. -/
def backtest (crypto : List Bar) (sc : Condition)
    (start_position : List Bar → Bool) (start_from : Option ℤ) :
    Option (List OutcomeRecord) :=
  let cdf := date_filtered crypto start_from
  let sub_frames := get_sub_frames cdf
  optionMapM (fun ie => backtest_step sc start_position ie.1 ie.2) sub_frames.enum

/-- `BackTestResult.prepare_data` (backtest.py lines 32-42), per bar date: the
outcome column starts as `"SKIPPED"` and each record row in order overwrites
the label of every date inside `[start_date, end_date]`. -/
def label_of (outcomes : List OutcomeRecord) (d : ℤ) : String :=
  outcomes.foldl
    (fun acc row => if row.start_date ≤ d ∧ d ≤ row.end_date then row.outcome else acc)
    "SKIPPED"

/-- The labelled outcome column of `crypto_data` after
`BackTestResult.prepare_data`. -/
def prepare_data (crypto : List Bar) (outcomes : List OutcomeRecord) : List String :=
  crypto.map (fun b => label_of outcomes b.date)

/-- The dictionary returned by `BackTestResult.return_outcome_stats`. -/
structure OutcomeStats where
  total_positions : ℕ
  percent_profitable : ℚ
  percent_unprofitable : ℚ
  percent_liquidated : ℚ
deriving DecidableEq, Repr

/-- `BackTestResult.return_outcome_stats` (backtest.py lines 58-91) applied to
an outcome column: filter out `"SKIPPED"`, count each outcome label, and turn
the counts into percentages of the non-skipped total (all percentages stay 0
when the total is 0). -/
def outcome_stats (col : List String) : OutcomeStats :=
  let filtered_data := col.filter (fun o => o != "SKIPPED")
  let total_positions := filtered_data.length
  let profitable_count := (filtered_data.filter (fun o => o == "PROFITABLE")).length
  let unprofitable_count := (filtered_data.filter (fun o => o == "UNPROFITABLE")).length
  let liquidated_count := (filtered_data.filter (fun o => o == "LIQUIDATED")).length
  if 0 < total_positions then
    { total_positions := total_positions
      percent_profitable := (profitable_count : ℚ) / total_positions * 100
      percent_unprofitable := (unprofitable_count : ℚ) / total_positions * 100
      percent_liquidated := (liquidated_count : ℚ) / total_positions * 100 }
  else
    { total_positions := total_positions
      percent_profitable := 0
      percent_unprofitable := 0
      percent_liquidated := 0 }

/-- `return_outcome_stats` on the outcomes DataFrame of a backtest result. -/
def return_outcome_stats (outcomes : List OutcomeRecord) : OutcomeStats :=
  outcome_stats (outcomes.map (fun r => r.outcome))

/-- Spec-side definition, from §4.4 step 2 of the spec: the evaluation window
`w` = the bars `[max(0, i − period_days + 1) .. i]` of the filtered series. -/
def spec_eval_window (cdf : List Bar) (pd : ℕ) (i : ℕ) : List Bar :=
  (cdf.take (i + 1)).drop (i + 1 - pd)

/-- Spec-side definition, from §4.4 step 1 of the spec: the prefix of the
first `i+1` bars with its last `period_days` bars removed (empty when the
prefix has at most `period_days` bars). -/
def spec_trimmed_lookback (cdf : List Bar) (pd : ℕ) (i : ℕ) : List Bar :=
  (cdf.take (i + 1)).take (i + 1 - pd)

/-- Claim C5: `Bound.contains` is, case by case: with `inside=true`,
`lower ≤ v ≤ upper` when both edges are set, `v ≥ lower` with only a lower
edge, `v ≤ upper` with only an upper edge; with `inside=false`, `v < lower` or
`v > upper` when both are set and the strict comparison on the single set
edge otherwise; `false` for every value when no edge is set; hence (for
coherent edges `L ≤ U`) inclusive bounds contain their own edges and
exclusive bounds exclude them. -/
theorem c5_bound_contains (L U v : ℚ) :
    (Bound.contains ⟨some L, some U, true⟩ v = true ↔ (L ≤ v ∧ v ≤ U)) ∧
    (Bound.contains ⟨some L, none, true⟩ v = true ↔ L ≤ v) ∧
    (Bound.contains ⟨none, some U, true⟩ v = true ↔ v ≤ U) ∧
    (Bound.contains ⟨some L, some U, false⟩ v = true ↔ (v < L ∨ v > U)) ∧
    (Bound.contains ⟨some L, none, false⟩ v = true ↔ v < L) ∧
    (Bound.contains ⟨none, some U, false⟩ v = true ↔ v > U) ∧
    (∀ b : Bool, Bound.contains ⟨none, none, b⟩ v = false) ∧
    (L ≤ U →
      Bound.contains ⟨some L, some U, true⟩ L = true ∧
      Bound.contains ⟨some L, some U, true⟩ U = true ∧
      Bound.contains ⟨some L, some U, false⟩ L = false ∧
      Bound.contains ⟨some L, some U, false⟩ U = false) := by
  refine ⟨by simp [Bound.contains], by simp [Bound.contains], by simp [Bound.contains],
    by simp [Bound.contains], by simp [Bound.contains], by simp [Bound.contains],
    by intro b; cases b <;> simp [Bound.contains], ?_⟩
  intro h
  refine ⟨by simp [Bound.contains, h], by simp [Bound.contains, h], ?_, ?_⟩ <;>
  · simp [Bound.contains]
    linarith

/-- Witness for C5 at `L = 1`, `U = 2`, `v = 0`. -/
theorem c5_bound_contains_witness :
    Bound.contains ⟨some 1, some 2, true⟩ 1 = true ∧
    Bound.contains ⟨some 1, some 2, false⟩ 2 = false := by
  obtain ⟨-, -, -, -, -, -, -, h⟩ := c5_bound_contains 1 2 0
  obtain ⟨h1, -, -, h4⟩ := h (by norm_num)
  exact ⟨h1, h4⟩

/-- Claim C3: `return_current_status` classifies `Liquidated` exactly when the
liquidation bound contains the price, else `Profitable` exactly when the
profit bound contains it, else `Unprofitable`, and never returns `Skipped`;
on the Condition with open_price 100, profit factors 0.1/0.1 and liquidation
factors 0.2/0.2, the price 80 classifies `Unprofitable` and 79.99 classifies
`Liquidated`. -/
theorem c3_classify_priority (c : Condition) (price : ℚ) :
    (c.return_current_status price = Outcomes.LIQUIDATED ↔
      c.liquidate_bound.contains price = true) ∧
    (c.return_current_status price = Outcomes.PROFITABLE ↔
      (c.liquidate_bound.contains price = false ∧ c.profit_bound.contains price = true)) ∧
    (c.return_current_status price = Outcomes.UNPROFITABLE ↔
      (c.liquidate_bound.contains price = false ∧ c.profit_bound.contains price = false)) ∧
    c.return_current_status price ≠ Outcomes.SKIPPED ∧
    (Condition.init 100 7 (some (1/10)) (some (1/10)) (some (1/5))
        (some (1/5))).return_current_status 80 = Outcomes.UNPROFITABLE ∧
    (Condition.init 100 7 (some (1/10)) (some (1/10)) (some (1/5))
        (some (1/5))).return_current_status (7999/100) = Outcomes.LIQUIDATED := by
  have eval : ∀ p : ℚ, (Condition.init 100 7 (some (1/10)) (some (1/10)) (some (1/5))
      (some (1/5))).return_current_status p
      = (if p < 80 ∨ p > 120 then Outcomes.LIQUIDATED
         else if 90 ≤ p ∧ p ≤ 110 then Outcomes.PROFITABLE else Outcomes.UNPROFITABLE) := by
    intro p
    simp [Condition.return_current_status, Condition.init, Condition.initialize_bounds,
      Bound.contains]
    norm_num
  refine ⟨?_, ?_, ?_, ?_, ?_, ?_⟩
  · unfold Condition.return_current_status
    cases h1 : Bound.contains c.liquidate_bound price <;>
      cases h2 : Bound.contains c.profit_bound price <;> simp [h1, h2]
  · unfold Condition.return_current_status
    cases h1 : Bound.contains c.liquidate_bound price <;>
      cases h2 : Bound.contains c.profit_bound price <;> simp [h1, h2]
  · unfold Condition.return_current_status
    cases h1 : Bound.contains c.liquidate_bound price <;>
      cases h2 : Bound.contains c.profit_bound price <;> simp [h1, h2]
  · unfold Condition.return_current_status
    cases h1 : Bound.contains c.liquidate_bound price <;>
      cases h2 : Bound.contains c.profit_bound price <;> simp [h1, h2]
  · rw [eval 80]
    norm_num
  · rw [eval (7999/100)]
    norm_num

/-- Witness for C3 at a concrete condition and price. -/
theorem c3_classify_priority_witness :
    (Condition.init 100 7 (some (1/10)) (some (1/10)) (some (1/5))
        (some (1/5))).return_current_status 100 = Outcomes.PROFITABLE := by
  have h := (c3_classify_priority
    (Condition.init 100 7 (some (1/10)) (some (1/10)) (some (1/5)) (some (1/5))) 100).2.1
  refine h.mpr ⟨?_, ?_⟩ <;>
  · simp only [Condition.init, Condition.initialize_bounds, Bound.contains]
    norm_num

/-- Claim C2 evidence (code bug): `Condition.__init__` performs no validation
and raises nothing: with neither profit factor set it completes and merely
leaves `strategy` unassigned, and a non-positive `period_days` is stored
unchecked. -/
theorem c2_construction_is_unchecked :
    (Condition.init 100 0 none none (some (1/5)) (some (1/5))).strategy = none ∧
    (Condition.init 100 0 none none (some (1/5)) (some (1/5))).period_days = 0 ∧
    (Condition.init 100 (-3) (some (1/10)) none none none).period_days = -3 ∧
    (Condition.init 100 (-3) (some (1/10)) none none none).strategy
      = some StrategyTypes.BEAR_CALL_SPREAD := by
  refine ⟨?_, rfl, rfl, ?_⟩ <;>
  · simp only [Condition.init, Condition.initialize_bounds, Condition.determine_strategy,
      pyTruthy]
    norm_num

/-- Counterexample to C4 as stated: with `open_price = 0` and both profit
factors present, both profit bounds are set (to `0`), yet the strategy is not
`LongCondor` — `determine_strategy` tests the bounds with Python truthiness,
so a zero-valued bound behaves as unset. -/
theorem c4_zero_bound_counterexample :
    (Condition.init 0 7 (some (1/10)) (some (1/10)) none none).profit_bound.lower.isSome
      = true ∧
    (Condition.init 0 7 (some (1/10)) (some (1/10)) none none).profit_bound.upper.isSome
      = true ∧
    (Condition.init 0 7 (some (1/10)) (some (1/10)) none none).strategy
      ≠ some StrategyTypes.LONG_CONDOR := by
  refine ⟨rfl, rfl, ?_⟩
  norm_num [Condition.init, Condition.initialize_bounds, Condition.determine_strategy,
    pyTruthy]
  exact fun h => Option.noConfusion h

/-- Claim C4 (amended): a constructed Condition derives
`profit_bound = ⟨open×(1−pbf)?, open×(1+paf)?, inside=true⟩` and
`liquidate_bound = ⟨open×(1−lbf)?, open×(1+laf)?, inside=false⟩`; the strategy
is `LongCondor` exactly when both profit bounds are set and nonzero (Python
truthiness), `BullPutSpread` exactly when only the upper one is, and
`BearCallSpread` exactly when only the lower one is. -/
theorem c4_derived_state (op : ℚ) (pd : ℤ) (pbf paf lbf laf : Option ℚ) :
    (Condition.init op pd pbf paf lbf laf).profit_bound
      = ⟨pbf.map (fun f => op * (1 - f)), paf.map (fun f => op * (1 + f)), true⟩ ∧
    (Condition.init op pd pbf paf lbf laf).liquidate_bound
      = ⟨lbf.map (fun f => op * (1 - f)), laf.map (fun f => op * (1 + f)), false⟩ ∧
    ((Condition.init op pd pbf paf lbf laf).strategy = some StrategyTypes.LONG_CONDOR ↔
      (pyTruthy (paf.map (fun f => op * (1 + f))) = true ∧
       pyTruthy (pbf.map (fun f => op * (1 - f))) = true)) ∧
    ((Condition.init op pd pbf paf lbf laf).strategy = some StrategyTypes.BULL_PUT_SPREAD ↔
      (pyTruthy (paf.map (fun f => op * (1 + f))) = true ∧
       pyTruthy (pbf.map (fun f => op * (1 - f))) = false)) ∧
    ((Condition.init op pd pbf paf lbf laf).strategy = some StrategyTypes.BEAR_CALL_SPREAD ↔
      (pyTruthy (pbf.map (fun f => op * (1 - f))) = true ∧
       pyTruthy (paf.map (fun f => op * (1 + f))) = false)) := by
  refine ⟨rfl, rfl, ?_, ?_, ?_⟩ <;>
  · simp only [Condition.init, Condition.initialize_bounds, Condition.determine_strategy]
    rcases Bool.eq_false_or_eq_true (pyTruthy (Option.map (fun f => op * (1 + f)) paf))
      with hu | hu <;>
    rcases Bool.eq_false_or_eq_true (pyTruthy (Option.map (fun f => op * (1 - f)) pbf))
      with hl | hl <;>
    simp [hu, hl]

lemma get_outcome_scan_none (c : Condition) :
    ∀ l : List Bar,
      (∀ x ∈ l, ¬(c.return_current_status x.low = Outcomes.LIQUIDATED ∨
                  c.return_current_status x.high = Outcomes.LIQUIDATED)) →
      get_outcome_scan c l = none := by
  intro l
  induction l with
  | nil => intro _; rfl
  | cons a t ih =>
    intro h
    have ha := h a (List.mem_cons_self a t)
    rw [get_outcome_scan, if_neg ha]
    exact ih (fun x hx => h x (List.mem_cons_of_mem a hx))

lemma get_outcome_scan_append (c : Condition) :
    ∀ pre rest : List Bar,
      (∀ x ∈ pre, ¬(c.return_current_status x.low = Outcomes.LIQUIDATED ∨
                    c.return_current_status x.high = Outcomes.LIQUIDATED)) →
      get_outcome_scan c (pre ++ rest) = get_outcome_scan c rest := by
  intro pre
  induction pre with
  | nil => intro rest _; rfl
  | cons a t ih =>
    intro rest h
    have ha := h a (List.mem_cons_self a t)
    rw [List.cons_append, get_outcome_scan, if_neg ha]
    exact ih rest (fun x hx => h x (List.mem_cons_of_mem a hx))

/-- Claim C1: `_get_outcome` scans the window's bars in order, classifying each
bar's low and then its high; at the first bar where either classifies as
`Liquidated` it stops with outcome `Liquidated` and liquidated_at_price equal
to that bar's low if the low triggered, else its high; if no bar triggers,
the outcome is the classification of the final bar's close with
liquidated_at_price 0. -/
theorem c1_liquidation_scan (c : Condition) (w : List Bar) :
    (∀ pre b post,
        w = pre ++ b :: post →
        (∀ x ∈ pre, ¬(c.return_current_status x.low = Outcomes.LIQUIDATED ∨
                      c.return_current_status x.high = Outcomes.LIQUIDATED)) →
        (c.return_current_status b.low = Outcomes.LIQUIDATED ∨
         c.return_current_status b.high = Outcomes.LIQUIDATED) →
        get_outcome c w = some (Outcomes.LIQUIDATED,
          if c.return_current_status b.low = Outcomes.LIQUIDATED then b.low else b.high)) ∧
    ((∀ x ∈ w, ¬(c.return_current_status x.low = Outcomes.LIQUIDATED ∨
                 c.return_current_status x.high = Outcomes.LIQUIDATED)) →
      ∀ last, w.getLast? = some last →
        get_outcome c w = some (c.return_current_status last.close, 0)) := by
  constructor
  · intro pre b post hw hpre hb
    subst hw
    unfold get_outcome
    rw [get_outcome_scan_append c pre (b :: post) hpre, get_outcome_scan, if_pos hb]
  · intro hall last hlast
    unfold get_outcome
    rw [get_outcome_scan_none c w hall, hlast]
    rfl

/-- Concrete data for the C1 witness: upper liquidation bound 120, the bar's
high 130 triggers, its low 90 does not. -/
def c1w_cond : Condition := Condition.init 100 2 none (some (1/10)) none (some (1/5))

def c1w_bar : Bar := ⟨0, 100, 130, 90, 100⟩

lemma c1w_low_status : c1w_cond.return_current_status c1w_bar.low = Outcomes.PROFITABLE := by
  norm_num [c1w_cond, c1w_bar, Condition.return_current_status, Condition.init,
    Condition.initialize_bounds, Bound.contains]

lemma c1w_high_liq : c1w_cond.return_current_status c1w_bar.high = Outcomes.LIQUIDATED := by
  norm_num [c1w_cond, c1w_bar, Condition.return_current_status, Condition.init,
    Condition.initialize_bounds, Bound.contains]

/-- Witness for C1: a one-bar window whose high triggers liquidation. -/
theorem c1_liquidation_scan_witness :
    get_outcome c1w_cond [c1w_bar] = some (Outcomes.LIQUIDATED, 130) := by
  have h := (c1_liquidation_scan c1w_cond [c1w_bar]).1 [] c1w_bar [] rfl
    (by intro x hx; cases hx) (Or.inr c1w_high_liq)
  rw [h, if_neg (by rw [c1w_low_status]; exact fun hh => Outcomes.noConfusion hh)]
  rfl

lemma optionMapM_length {α β : Type} (f : α → Option β) :
    ∀ (l : List α) (r : List β), optionMapM f l = some r → r.length = l.length := by
  intro l
  induction l with
  | nil =>
    intro r h
    simp only [optionMapM, Option.some_inj] at h
    subst h
    rfl
  | cons a t ih =>
    intro r h
    simp only [optionMapM] at h
    cases hfa : f a with
    | none => rw [hfa] at h; exact absurd h (by simp)
    | some b =>
      rw [hfa] at h
      cases hmt : optionMapM f t with
      | none => rw [hmt] at h; exact absurd h (by simp)
      | some bs =>
        rw [hmt] at h
        simp only [Option.some_inj] at h
        subst h
        simp [ih bs hmt]

lemma optionMapM_getElem {α β : Type} (f : α → Option β) :
    ∀ (l : List α) (r : List β), optionMapM f l = some r →
      ∀ (i : ℕ) (a : α), l[i]? = some a → r[i]? = f a := by
  intro l
  induction l with
  | nil =>
    intro r _ i a ha
    simp at ha
  | cons x t ih =>
    intro r h i a ha
    simp only [optionMapM] at h
    cases hfa : f x with
    | none => rw [hfa] at h; exact absurd h (by simp)
    | some b =>
      rw [hfa] at h
      cases hmt : optionMapM f t with
      | none => rw [hmt] at h; exact absurd h (by simp)
      | some bs =>
        rw [hmt] at h
        simp only [Option.some_inj] at h
        subst h
        cases i with
        | zero =>
          simp only [List.getElem?_cons_zero, Option.some_inj] at ha
          subst ha
          simp [hfa]
        | succ j =>
          simp only [List.getElem?_cons_succ] at ha
          simpa using ih bs hmt j a ha

lemma optionMapM_isSome {α β : Type} (f : α → Option β) :
    ∀ l : List α, (∀ a ∈ l, (f a).isSome) → ∃ r, optionMapM f l = some r := by
  intro l
  induction l with
  | nil => intro _; exact ⟨[], rfl⟩
  | cons a t ih =>
    intro h
    obtain ⟨b, hb⟩ := Option.isSome_iff_exists.mp (h a (List.mem_cons_self a t))
    obtain ⟨bs, hbs⟩ := ih (fun x hx => h x (List.mem_cons_of_mem a hx))
    exact ⟨b :: bs, by simp [optionMapM, hb, hbs]⟩

lemma get_outcome_isSome (c : Condition) (w : List Bar) (hne : w ≠ []) :
    (get_outcome c w).isSome := by
  unfold get_outcome
  cases h : get_outcome_scan c w
  · rw [List.getLast?_eq_getLast w hne]
    simp
  · simp

lemma trimmed_eq (cdf : List Bar) (pd : ℤ) (i : ℕ) (hpd : 0 < pd) (hi : i < cdf.length) :
    (if ((cdf.take (i + 1)).length : ℤ) > pd then pyTake (cdf.take (i + 1)) (-pd) else [])
      = spec_trimmed_lookback cdf pd.toNat i := by
  have hlen : (cdf.take (i + 1)).length = i + 1 := by
    rw [List.length_take]
    omega
  rw [spec_trimmed_lookback, hlen]
  by_cases h : ((i + 1 : ℕ) : ℤ) > pd
  · rw [if_pos h, pyTake, if_neg (by omega), hlen]
    congr 1
    omega
  · rw [if_neg h]
    have hz : i + 1 - pd.toNat = 0 := by omega
    rw [hz, List.take_zero]

lemma backtest_step_spec (sc : Condition) (sp : List Bar → Bool) (cdf : List Bar) (i : ℕ)
    (hpd : 0 < sc.period_days) (hi : i < cdf.length) :
    ∃ first last,
      (spec_eval_window cdf sc.period_days.toNat i).head? = some first ∧
      (spec_eval_window cdf sc.period_days.toNat i).getLast? = some last ∧
      backtest_step sc sp i (cdf.take (i + 1)) =
        (if sp (spec_trimmed_lookback cdf sc.period_days.toNat i) then
          (get_outcome (sc.update_open_price first.open_)
              (spec_eval_window cdf sc.period_days.toNat i)).map (fun r =>
            { start_date := first.date
              end_date := last.date
              outcome := r.1.pyName
              open_price := first.open_
              close_price := last.close
              liquidated_at_price := r.2 })
        else
          some { start_date := first.date
                 end_date := last.date
                 outcome := "SKIPPED"
                 open_price := first.open_
                 close_price := last.close
                 liquidated_at_price := 0 }) := by
  have hlen : (cdf.take (i + 1)).length = i + 1 := by
    rw [List.length_take]
    omega
  have ha : (max 0 ((i : ℤ) - sc.period_days + 1)).toNat = i + 1 - sc.period_days.toNat := by
    omega
  have hwpos : 0 < (spec_eval_window cdf sc.period_days.toNat i).length := by
    rw [spec_eval_window, List.length_drop, hlen]
    omega
  have hw_ne : spec_eval_window cdf sc.period_days.toNat i ≠ [] :=
    List.length_pos.mp hwpos
  have hdf : ((cdf.take (i + 1)).drop (i + 1 - sc.period_days.toNat)).take
      (i + 1 - (i + 1 - sc.period_days.toNat)) = spec_eval_window cdf sc.period_days.toNat i := by
    rw [spec_eval_window]
    apply List.take_of_length_le
    rw [List.length_drop, hlen]
  refine ⟨(spec_eval_window cdf sc.period_days.toNat i).head hw_ne,
    (spec_eval_window cdf sc.period_days.toNat i).getLast hw_ne,
    List.head?_eq_head hw_ne, List.getLast?_eq_getLast _ hw_ne, ?_⟩
  unfold backtest_step
  simp only [ha, hdf, trimmed_eq cdf sc.period_days i hpd hi,
    List.head?_eq_head hw_ne, List.getLast?_eq_getLast _ hw_ne, Outcomes.pyName]

lemma backtest_records (crypto : List Bar) (sc : Condition) (sp : List Bar → Bool)
    (start_from : Option ℤ) (hpd : 0 < sc.period_days) :
    ∃ records, backtest crypto sc sp start_from = some records ∧
      records.length = (date_filtered crypto start_from).length ∧
      ∀ i, i < (date_filtered crypto start_from).length →
        records[i]? = backtest_step sc sp i ((date_filtered crypto start_from).take (i + 1)) := by
  set cdf := date_filtered crypto start_from with hcdf
  have hsome : ∀ p ∈ (get_sub_frames cdf).enum,
      (backtest_step sc sp p.1 p.2).isSome := by
    intro p hp
    have hget := List.mem_enum_iff_getElem?.mp hp
    rw [get_sub_frames, List.getElem?_map] at hget
    have hplt : p.1 < cdf.length := by
      by_contra hcon
      rw [List.getElem?_eq_none (by simpa [List.length_range] using hcon)] at hget
      exact Option.noConfusion hget
    rw [List.getElem?_range hplt] at hget
    simp only [Option.map_some', Option.some_inj] at hget
    obtain ⟨first, last, -, -, hstep⟩ := backtest_step_spec sc sp cdf p.1 hpd hplt
    have hw_ne : spec_eval_window cdf sc.period_days.toNat p.1 ≠ [] := by
      apply List.length_pos.mp
      rw [spec_eval_window, List.length_drop, List.length_take]
      omega
    rw [← hget, hstep]
    by_cases hsp : sp (spec_trimmed_lookback cdf sc.period_days.toNat p.1)
    · rw [if_pos hsp]
      cases hgo : get_outcome (sc.update_open_price first.open_)
          (spec_eval_window cdf sc.period_days.toNat p.1) with
      | none =>
        exact absurd (hgo ▸ get_outcome_isSome _ _ hw_ne) (by simp)
      | some r =>
        rfl
    · rw [if_neg hsp]
      rfl
  obtain ⟨records, hrec⟩ := optionMapM_isSome _ _ hsome
  refine ⟨records, hrec, ?_, ?_⟩
  · have := optionMapM_length _ _ _ hrec
    rw [this, List.enum_length, get_sub_frames, List.length_map, List.length_range]
  · intro i hilt
    have henum : (get_sub_frames cdf).enum[i]? = some (i, cdf.take (i + 1)) := by
      rw [List.getElem?_enum, get_sub_frames, List.getElem?_map, List.getElem?_range hilt]
      rfl
    exact optionMapM_getElem _ _ _ hrec i (i, cdf.take (i + 1)) henum

lemma backtest_getElem (crypto : List Bar) (sc : Condition) (sp : List Bar → Bool)
    (start_from : Option ℤ) (records : List OutcomeRecord)
    (h : backtest crypto sc sp start_from = some records)
    (i : ℕ) (hi : i < (date_filtered crypto start_from).length) :
    records[i]? = backtest_step sc sp i ((date_filtered crypto start_from).take (i + 1)) := by
  have henum : (get_sub_frames (date_filtered crypto start_from)).enum[i]?
      = some (i, (date_filtered crypto start_from).take (i + 1)) := by
    rw [List.getElem?_enum, get_sub_frames, List.getElem?_map, List.getElem?_range hi]
    rfl
  exact optionMapM_getElem _ _ _ h i _ henum

/-- Claim C6: over the (optionally date-filtered) series, the engine produces
one record per index in index order; at index `i` the entry predicate is
passed the first `i+1` bars with the last `period_days` removed (empty when
the prefix has at most `period_days` bars), the evaluation window is bars
`[max(0, i − period_days + 1) .. i]`, and the record takes start_date and
open_price from the window's first bar and end_date and close_price from its
last bar (the outcome coming from `_get_outcome` when a position is opened,
`SKIPPED` otherwise). -/
theorem c6_engine_windows (crypto : List Bar) (sc : Condition) (sp : List Bar → Bool)
    (start_from : Option ℤ) (hpd : 0 < sc.period_days) :
    ∃ records, backtest crypto sc sp start_from = some records ∧
      records.length = (date_filtered crypto start_from).length ∧
      ∀ i, i < (date_filtered crypto start_from).length →
        ∃ first last,
          (spec_eval_window (date_filtered crypto start_from) sc.period_days.toNat i).head?
            = some first ∧
          (spec_eval_window (date_filtered crypto start_from) sc.period_days.toNat i).getLast?
            = some last ∧
          (sp (spec_trimmed_lookback (date_filtered crypto start_from) sc.period_days.toNat i)
              = true →
            ∃ o lap,
              get_outcome (sc.update_open_price first.open_)
                  (spec_eval_window (date_filtered crypto start_from) sc.period_days.toNat i)
                = some (o, lap) ∧
              records[i]? = some
                { start_date := first.date, end_date := last.date, outcome := o.pyName,
                  open_price := first.open_, close_price := last.close,
                  liquidated_at_price := lap }) ∧
          (sp (spec_trimmed_lookback (date_filtered crypto start_from) sc.period_days.toNat i)
              = false →
            records[i]? = some
              { start_date := first.date, end_date := last.date, outcome := "SKIPPED",
                open_price := first.open_, close_price := last.close,
                liquidated_at_price := 0 }) := by
  obtain ⟨records, hb, hlen, hidx⟩ := backtest_records crypto sc sp start_from hpd
  refine ⟨records, hb, hlen, ?_⟩
  intro i hi
  obtain ⟨first, last, hf, hl, hstep⟩ :=
    backtest_step_spec sc sp (date_filtered crypto start_from) i hpd hi
  have hw_ne : spec_eval_window (date_filtered crypto start_from) sc.period_days.toNat i
      ≠ [] := by
    apply List.length_pos.mp
    rw [spec_eval_window, List.length_drop, List.length_take]
    omega
  refine ⟨first, last, hf, hl, ?_, ?_⟩
  · intro hsp
    obtain ⟨r, hr⟩ := Option.isSome_iff_exists.mp
      (get_outcome_isSome (sc.update_open_price first.open_) _ hw_ne)
    refine ⟨r.1, r.2, by rw [hr], ?_⟩
    rw [hidx i hi, hstep, if_pos hsp, hr]
    rfl
  · intro hsp
    rw [hidx i hi, hstep, hsp]
    rfl

/-- Concrete data for the engine witnesses. -/
def c67w_bars : List Bar :=
  [⟨0, 100, 105, 95, 100⟩, ⟨1, 100, 106, 96, 101⟩, ⟨2, 101, 107, 97, 102⟩]

def c67w_cond : Condition := Condition.init 100 2 none (some (1/10)) none (some (1/5))

/-- Witness for C6: the engine run on three bars yields one record per bar. -/
theorem c6_engine_windows_witness :
    0 < c67w_cond.period_days ∧
    ∃ records, backtest c67w_bars c67w_cond (fun _ => true) none = some records ∧
      records.length = (date_filtered c67w_bars none).length := by
  refine ⟨by decide, ?_⟩
  obtain ⟨records, h1, h2, -⟩ :=
    c6_engine_windows c67w_bars c67w_cond (fun _ => true) none (by decide)
  exact ⟨records, h1, h2⟩

/-- Claim C7: a window whose trimmed lookback fails the entry predicate is
recorded as `SKIPPED` with liquidated_at_price 0; the Condition is not
consulted for it (any template with the same period_days yields the same
record); consequently, with an always-false entry predicate every record is
`SKIPPED` with liquidated_at_price 0. -/
theorem c7_skipped_windows (crypto : List Bar) (sc : Condition) (sp : List Bar → Bool)
    (start_from : Option ℤ) (hpd : 0 < sc.period_days) :
    ∃ records, backtest crypto sc sp start_from = some records ∧
      (∀ i, i < (date_filtered crypto start_from).length →
        sp (spec_trimmed_lookback (date_filtered crypto start_from) sc.period_days.toNat i)
            = false →
        ∃ r, records[i]? = some r ∧ r.outcome = "SKIPPED" ∧ r.liquidated_at_price = 0) ∧
      (∀ sc' : Condition, sc'.period_days = sc.period_days →
        ∀ records', backtest crypto sc' sp start_from = some records' →
        ∀ i, i < (date_filtered crypto start_from).length →
        sp (spec_trimmed_lookback (date_filtered crypto start_from) sc.period_days.toNat i)
            = false →
        records'[i]? = records[i]?) ∧
      ((∀ l, sp l = false) →
        ∀ r ∈ records, r.outcome = "SKIPPED" ∧ r.liquidated_at_price = 0) := by
  obtain ⟨records, hb, hlen, hidx⟩ := backtest_records crypto sc sp start_from hpd
  have hskip : ∀ i, i < (date_filtered crypto start_from).length →
      sp (spec_trimmed_lookback (date_filtered crypto start_from) sc.period_days.toNat i)
          = false →
      ∃ (first : Bar) (last : Bar), records[i]? = some
        { start_date := first.date, end_date := last.date, outcome := "SKIPPED",
          open_price := first.open_, close_price := last.close,
          liquidated_at_price := 0 } := by
    intro i hi hsp
    obtain ⟨first, last, -, -, hstep⟩ :=
      backtest_step_spec sc sp (date_filtered crypto start_from) i hpd hi
    refine ⟨first, last, ?_⟩
    rw [hidx i hi, hstep, hsp]
    rfl
  refine ⟨records, hb, ?_, ?_, ?_⟩
  · intro i hi hsp
    obtain ⟨first, last, hrec⟩ := hskip i hi hsp
    exact ⟨_, hrec, rfl, rfl⟩
  · intro sc' hsc' records' hb' i hi hsp
    have hpd' : 0 < sc'.period_days := hsc' ▸ hpd
    obtain ⟨first', last', hf', hl', hstep'⟩ :=
      backtest_step_spec sc' sp (date_filtered crypto start_from) i hpd' hi
    obtain ⟨first, last, hf, hl, hstep⟩ :=
      backtest_step_spec sc sp (date_filtered crypto start_from) i hpd hi
    rw [hsc'] at hf' hl' hstep'
    have hfirst : first' = first := Option.some_inj.mp (hf'.symm.trans hf)
    have hlast : last' = last := Option.some_inj.mp (hl'.symm.trans hl)
    rw [backtest_getElem crypto sc' sp start_from records' hb' i hi, hstep', hsp,
      hidx i hi, hstep, hsp, hfirst, hlast]
    rfl
  · intro hall r hr
    obtain ⟨i, hi⟩ := List.mem_iff_getElem?.mp hr
    have hilt : i < (date_filtered crypto start_from).length := by
      rw [← hlen]
      by_contra hcon
      rw [List.getElem?_eq_none (by omega)] at hi
      exact Option.noConfusion hi
    obtain ⟨first, last, hrec⟩ := hskip i hilt (hall _)
    rw [hi] at hrec
    simp only [Option.some_inj] at hrec
    rw [hrec]
    exact ⟨rfl, rfl⟩

/-- Witness for C7: with an always-false entry predicate, every record of a
concrete three-bar run is `SKIPPED` with liquidated_at_price 0. -/
theorem c7_skipped_windows_witness :
    0 < c67w_cond.period_days ∧
    ∃ records, backtest c67w_bars c67w_cond (fun _ => false) none = some records ∧
      ∀ r ∈ records, r.outcome = "SKIPPED" ∧ r.liquidated_at_price = 0 := by
  refine ⟨by decide, ?_⟩
  obtain ⟨records, h1, -, -, h4⟩ :=
    c7_skipped_windows c67w_bars c67w_cond (fun _ => false) none (by decide)
  exact ⟨records, h1, h4 (fun _ => rfl)⟩

lemma filter_map_outcome (p : String → Bool) (l : List OutcomeRecord) :
    (l.map (fun r => r.outcome)).filter p
      = (l.filter (fun r => p r.outcome)).map (fun r => r.outcome) := by
  induction l with
  | nil => rfl
  | cons a t ih =>
    cases hpa : p a.outcome <;> simp [List.filter_cons, hpa, ih]

/-- Claim C8: `return_outcome_stats` counts `total_positions` as the records
whose outcome is not `SKIPPED`; the percentages are the per-outcome shares of
the non-skipped records; with zero non-skipped records it returns 0 for the
total and all three percentages (no division fault). -/
theorem c8_outcome_stats (outcomes : List OutcomeRecord) :
    (return_outcome_stats outcomes).total_positions
      = (outcomes.filter (fun r => r.outcome != "SKIPPED")).length ∧
    ((outcomes.filter (fun r => r.outcome != "SKIPPED")).length = 0 →
      (return_outcome_stats outcomes).percent_profitable = 0 ∧
      (return_outcome_stats outcomes).percent_unprofitable = 0 ∧
      (return_outcome_stats outcomes).percent_liquidated = 0) ∧
    (0 < (outcomes.filter (fun r => r.outcome != "SKIPPED")).length →
      (return_outcome_stats outcomes).percent_profitable
        = (((outcomes.filter (fun r => r.outcome != "SKIPPED")).filter
              (fun r => r.outcome == "PROFITABLE")).length : ℚ)
          / ((outcomes.filter (fun r => r.outcome != "SKIPPED")).length : ℚ) * 100 ∧
      (return_outcome_stats outcomes).percent_unprofitable
        = (((outcomes.filter (fun r => r.outcome != "SKIPPED")).filter
              (fun r => r.outcome == "UNPROFITABLE")).length : ℚ)
          / ((outcomes.filter (fun r => r.outcome != "SKIPPED")).length : ℚ) * 100 ∧
      (return_outcome_stats outcomes).percent_liquidated
        = (((outcomes.filter (fun r => r.outcome != "SKIPPED")).filter
              (fun r => r.outcome == "LIQUIDATED")).length : ℚ)
          / ((outcomes.filter (fun r => r.outcome != "SKIPPED")).length : ℚ) * 100) := by
  by_cases h : (outcomes.filter (fun r => r.outcome != "SKIPPED")).length = 0
  · refine ⟨?_, fun _ => ⟨?_, ?_, ?_⟩, fun hpos => absurd h (by omega)⟩ <;>
      simp [return_outcome_stats, outcome_stats, filter_map_outcome, h]
  · have hpos : 0 < (outcomes.filter (fun r => r.outcome != "SKIPPED")).length :=
      Nat.pos_of_ne_zero h
    refine ⟨?_, fun h0 => absurd h0 h, fun _ => ⟨?_, ?_, ?_⟩⟩ <;>
      simp [return_outcome_stats, outcome_stats, filter_map_outcome, hpos]

/-- Witness for C8 at concrete inputs: the empty record list and a two-record
list with one skipped record. -/
theorem c8_outcome_stats_witness :
    (return_outcome_stats []).percent_profitable = 0 ∧
    (return_outcome_stats
      [⟨0, 1, "PROFITABLE", 0, 0, 0⟩, ⟨2, 3, "SKIPPED", 0, 0, 0⟩]).total_positions = 1 := by
  constructor
  · exact ((c8_outcome_stats []).2.1 rfl).1
  · rw [(c8_outcome_stats [⟨0, 1, "PROFITABLE", 0, 0, 0⟩, ⟨2, 3, "SKIPPED", 0, 0, 0⟩]).1]
    rfl

lemma countP_three_eq_length :
    ∀ l : List String,
      (∀ s ∈ l, s = "PROFITABLE" ∨ s = "UNPROFITABLE" ∨ s = "LIQUIDATED") →
      l.countP (fun o => o == "PROFITABLE") + l.countP (fun o => o == "UNPROFITABLE")
        + l.countP (fun o => o == "LIQUIDATED") = l.length := by
  intro l
  induction l with
  | nil => intro _; rfl
  | cons a t ih =>
    intro h
    have ht := ih (fun s hs => h s (List.mem_cons_of_mem a hs))
    rcases h a (List.mem_cons_self a t) with ha | ha | ha <;>
      subst ha <;> simp [List.countP_cons] <;> omega

lemma outcome_stats_sum (col : List String)
    (hl : ∀ s ∈ col,
      s = "PROFITABLE" ∨ s = "UNPROFITABLE" ∨ s = "LIQUIDATED" ∨ s = "SKIPPED")
    (hpos : 0 < (col.filter (fun o => o != "SKIPPED")).length) :
    (outcome_stats col).percent_profitable + (outcome_stats col).percent_unprofitable
      + (outcome_stats col).percent_liquidated = 100 := by
  have hmem : ∀ s ∈ col.filter (fun o => o != "SKIPPED"),
      s = "PROFITABLE" ∨ s = "UNPROFITABLE" ∨ s = "LIQUIDATED" := by
    intro s hs
    rw [List.mem_filter] at hs
    rcases hl s hs.1 with h | h | h | h
    · exact Or.inl h
    · exact Or.inr (Or.inl h)
    · exact Or.inr (Or.inr h)
    · rw [h] at hs
      simpa using hs.2
  have hcount := countP_three_eq_length (col.filter (fun o => o != "SKIPPED")) hmem
  rw [List.countP_eq_length_filter, List.countP_eq_length_filter,
    List.countP_eq_length_filter] at hcount
  have ht : ((col.filter (fun o => o != "SKIPPED")).length : ℚ) ≠ 0 := by
    exact_mod_cast Nat.pos_iff_ne_zero.mp hpos
  simp only [List.filter_filter] at hcount
  unfold outcome_stats
  rw [if_pos hpos]
  simp only [List.filter_filter]
  field_simp
  push_cast [← hcount]
  ring

/-- Claim C10: when every record's outcome is one of the four labels and at
least one record is non-skipped, the three percentages of
`return_outcome_stats` sum to exactly 100 in exact rational arithmetic. -/
theorem c10_percentages_sum (outcomes : List OutcomeRecord)
    (hlabels : ∀ r ∈ outcomes, r.outcome = "PROFITABLE" ∨ r.outcome = "UNPROFITABLE"
      ∨ r.outcome = "LIQUIDATED" ∨ r.outcome = "SKIPPED")
    (hpos : 0 < (outcomes.filter (fun r => r.outcome != "SKIPPED")).length) :
    (return_outcome_stats outcomes).percent_profitable
      + (return_outcome_stats outcomes).percent_unprofitable
      + (return_outcome_stats outcomes).percent_liquidated = 100 := by
  unfold return_outcome_stats
  apply outcome_stats_sum
  · intro s hs
    obtain ⟨r, hr, hout⟩ := List.mem_map.mp hs
    subst hout
    exact hlabels r hr
  · rw [filter_map_outcome, List.length_map]
    exact hpos

/-- Witness for C10: two non-skipped records, percentages 50 + 0 + 50. -/
theorem c10_percentages_sum_witness :
    (return_outcome_stats
        [⟨0, 1, "PROFITABLE", 0, 0, 0⟩, ⟨2, 3, "LIQUIDATED", 0, 0, 0⟩]).percent_profitable
      + (return_outcome_stats
        [⟨0, 1, "PROFITABLE", 0, 0, 0⟩, ⟨2, 3, "LIQUIDATED", 0, 0, 0⟩]).percent_unprofitable
      + (return_outcome_stats
        [⟨0, 1, "PROFITABLE", 0, 0, 0⟩, ⟨2, 3, "LIQUIDATED", 0, 0, 0⟩]).percent_liquidated
      = 100 :=
  c10_percentages_sum _ (by decide) (by decide)

lemma label_of_append (outcomes : List OutcomeRecord) (r : OutcomeRecord) (d : ℤ) :
    label_of (outcomes ++ [r]) d
      = if r.start_date ≤ d ∧ d ≤ r.end_date then r.outcome else label_of outcomes d := by
  unfold label_of
  rw [List.foldl_append]
  rfl

lemma label_of_skipped (d : ℤ) :
    ∀ outcomes : List OutcomeRecord,
      (∀ r ∈ outcomes, ¬(r.start_date ≤ d ∧ d ≤ r.end_date)) →
      label_of outcomes d = "SKIPPED" := by
  intro outcomes
  induction outcomes using List.reverseRecOn with
  | nil => intro _; rfl
  | append_singleton rs r ih =>
    intro h
    rw [label_of_append, if_neg (h r (by simp))]
    exact ih (fun x hx => h x (by simp [hx]))

lemma countP_label_overwrite (p : String → Bool) (hp : p "SKIPPED" = false)
    (r : OutcomeRecord) (g : Bar → String) :
    ∀ crypto : List Bar,
      crypto.countP (fun b => decide (r.start_date ≤ b.date ∧ b.date ≤ r.end_date)) = 1 →
      (∀ b ∈ crypto, r.start_date ≤ b.date ∧ b.date ≤ r.end_date → g b = "SKIPPED") →
      (crypto.map (fun b =>
          if r.start_date ≤ b.date ∧ b.date ≤ r.end_date then r.outcome else g b)).countP p
        = (crypto.map g).countP p + (if p r.outcome = true then 1 else 0) := by
  intro crypto
  induction crypto with
  | nil => intro h _; simp at h
  | cons b t ih =>
    intro hone hskip
    by_cases hb : r.start_date ≤ b.date ∧ b.date ≤ r.end_date
    · have htail :
          t.countP (fun x => decide (r.start_date ≤ x.date ∧ x.date ≤ r.end_date)) = 0 := by
        rw [List.countP_cons] at hone
        have hif : (if (decide (r.start_date ≤ b.date ∧ b.date ≤ r.end_date)) = true
            then 1 else 0) = 1 := by simp [hb]
        omega
      have htmap : t.map (fun x =>
          if r.start_date ≤ x.date ∧ x.date ≤ r.end_date then r.outcome else g x)
          = t.map g := by
        apply List.map_congr_left
        intro x hx
        have hnx := List.countP_eq_zero.mp htail x hx
        simp only [decide_eq_true_eq] at hnx
        exact if_neg hnx
      rw [List.map_cons, List.map_cons, List.countP_cons, List.countP_cons, if_pos hb, htmap,
        hskip b (List.mem_cons_self b t) hb, hp]
      simp
    · have hone' :
          t.countP (fun x => decide (r.start_date ≤ x.date ∧ x.date ≤ r.end_date)) = 1 := by
        rw [List.countP_cons] at hone
        have hif : (if (decide (r.start_date ≤ b.date ∧ b.date ≤ r.end_date)) = true
            then 1 else 0) = 0 := by simp [hb]
        omega
      rw [List.map_cons, List.map_cons, List.countP_cons, List.countP_cons, if_neg hb,
        ih hone' (fun x hx hm => hskip x (List.mem_cons_of_mem b hx) hm)]
      omega

lemma prepare_data_countP (p : String → Bool) (hp : p "SKIPPED" = false) :
    ∀ (records : List OutcomeRecord) (crypto : List Bar),
      (∀ r ∈ records,
        crypto.countP (fun b => decide (r.start_date ≤ b.date ∧ b.date ≤ r.end_date)) = 1) →
      (∀ b ∈ crypto,
        records.countP (fun r => decide (r.start_date ≤ b.date ∧ b.date ≤ r.end_date)) ≤ 1) →
      (prepare_data crypto records).countP p = records.countP (fun r => p r.outcome) := by
  intro records
  induction records using List.reverseRecOn with
  | nil =>
    intro crypto _ _
    unfold prepare_data
    rw [List.countP_map]
    simp [label_of, hp]
  | append_singleton rs r ih =>
    intro crypto hone hdisj
    have hrs_skip : ∀ b ∈ crypto, r.start_date ≤ b.date ∧ b.date ≤ r.end_date →
        label_of rs b.date = "SKIPPED" := by
      intro b hb hmatch
      apply label_of_skipped
      intro r' hr' hmatch'
      have hd := hdisj b hb
      rw [List.countP_append, List.countP_cons] at hd
      have h1 : 0 < rs.countP
          (fun rr => decide (rr.start_date ≤ b.date ∧ b.date ≤ rr.end_date)) :=
        List.countP_pos_iff.mpr ⟨r', hr', by simpa using hmatch'⟩
      have h2 : (if (decide (r.start_date ≤ b.date ∧ b.date ≤ r.end_date)) = true
          then 1 else 0) = 1 := by simp [hmatch]
      omega
    have hmap : prepare_data crypto (rs ++ [r])
        = crypto.map (fun b =>
            if r.start_date ≤ b.date ∧ b.date ≤ r.end_date then r.outcome
            else label_of rs b.date) := by
      unfold prepare_data
      apply List.map_congr_left
      intro b _
      exact label_of_append rs r b.date
    have hone_r := hone r (by simp)
    rw [hmap, countP_label_overwrite p hp r (fun b => label_of rs b.date) crypto hone_r hrs_skip]
    have hih := ih crypto (fun r' hr' => hone r' (by simp [hr']))
      (fun b hb => by
        have hd := hdisj b hb
        rw [List.countP_append] at hd
        omega)
    unfold prepare_data at hih
    rw [hih, List.countP_append, List.countP_cons]
    simp

lemma outcome_stats_congr (col1 col2 : List String)
    (h : ∀ p : String → Bool, p "SKIPPED" = false → col1.countP p = col2.countP p) :
    outcome_stats col1 = outcome_stats col2 := by
  have h0 := h (fun o => o != "SKIPPED") (by simp)
  have h1 := h (fun o => (o == "PROFITABLE") && (o != "SKIPPED")) (by decide)
  have h2 := h (fun o => (o == "UNPROFITABLE") && (o != "SKIPPED")) (by decide)
  have h3 := h (fun o => (o == "LIQUIDATED") && (o != "SKIPPED")) (by decide)
  unfold outcome_stats
  simp only [List.filter_filter, ← List.countP_eq_length_filter]
  rw [h0, h1, h2, h3]

/-- Counterexample to C9 as stated: three bars (dates 0,1,2) and two records,
one covering two bars with outcome `PROFITABLE` and one covering one bar with
outcome `LIQUIDATED`.  The record stats give 50% profitable, the labelled-bar
stats give 200/3 % — the round trip does not preserve the percentages when
records cover unequal numbers of bars. -/
theorem c9_roundtrip_counterexample :
    (outcome_stats (prepare_data
        [⟨0, 100, 100, 100, 100⟩, ⟨1, 100, 100, 100, 100⟩, ⟨2, 100, 100, 100, 100⟩]
        [⟨0, 1, "PROFITABLE", 0, 0, 0⟩, ⟨2, 2, "LIQUIDATED", 0, 0, 0⟩])).percent_profitable
      ≠ (return_outcome_stats
        [⟨0, 1, "PROFITABLE", 0, 0, 0⟩, ⟨2, 2, "LIQUIDATED", 0, 0, 0⟩]).percent_profitable := by
  have h1 : prepare_data
      [⟨0, 100, 100, 100, 100⟩, ⟨1, 100, 100, 100, 100⟩, ⟨2, 100, 100, 100, 100⟩]
      [⟨0, 1, "PROFITABLE", 0, 0, 0⟩, ⟨2, 2, "LIQUIDATED", 0, 0, 0⟩]
      = ["PROFITABLE", "PROFITABLE", "LIQUIDATED"] := rfl
  rw [h1]
  have h2 : (outcome_stats ["PROFITABLE", "PROFITABLE", "LIQUIDATED"]).percent_profitable
      = (2 : ℚ) / 3 * 100 := rfl
  have h3 : (return_outcome_stats
      [⟨0, 1, "PROFITABLE", 0, 0, 0⟩, ⟨2, 2, "LIQUIDATED", 0, 0, 0⟩]).percent_profitable
      = (1 : ℚ) / 2 * 100 := rfl
  rw [h2, h3]
  norm_num

/-- Claim C9 (amended): when every record's date interval contains exactly one
bar of the series and no bar lies in two record intervals, labelling the bars
(`prepare_data`) and summarizing the labelled outcome column reproduces the
same percent_profitable, percent_unprofitable and percent_liquidated as
summarizing the records directly. -/
theorem c9_label_roundtrip (crypto : List Bar) (records : List OutcomeRecord)
    (hone : ∀ r ∈ records,
      crypto.countP (fun b => decide (r.start_date ≤ b.date ∧ b.date ≤ r.end_date)) = 1)
    (hdisj : ∀ b ∈ crypto,
      records.countP (fun r => decide (r.start_date ≤ b.date ∧ b.date ≤ r.end_date)) ≤ 1) :
    (outcome_stats (prepare_data crypto records)).percent_profitable
      = (return_outcome_stats records).percent_profitable ∧
    (outcome_stats (prepare_data crypto records)).percent_unprofitable
      = (return_outcome_stats records).percent_unprofitable ∧
    (outcome_stats (prepare_data crypto records)).percent_liquidated
      = (return_outcome_stats records).percent_liquidated := by
  have hcongr : outcome_stats (prepare_data crypto records)
      = outcome_stats (records.map (fun r => r.outcome)) := by
    apply outcome_stats_congr
    intro p hp
    rw [List.countP_map]
    exact prepare_data_countP p hp records crypto hone hdisj
  unfold return_outcome_stats
  rw [hcongr]
  exact ⟨rfl, rfl, rfl⟩

/-- Concrete data for the C9 witness: each record covers exactly one bar and
the intervals are disjoint. -/
def c9w_bars : List Bar :=
  [⟨0, 100, 100, 100, 100⟩, ⟨1, 100, 100, 100, 100⟩, ⟨2, 100, 100, 100, 100⟩]

def c9w_records : List OutcomeRecord :=
  [⟨0, 0, "PROFITABLE", 0, 0, 0⟩, ⟨2, 2, "LIQUIDATED", 0, 0, 0⟩]

/-- Witness for C9 (amended) at concrete one-bar-per-record data. -/
theorem c9_label_roundtrip_witness :
    (outcome_stats (prepare_data c9w_bars c9w_records)).percent_profitable
      = (return_outcome_stats c9w_records).percent_profitable :=
  (c9_label_roundtrip c9w_bars c9w_records (by decide) (by decide)).1
